import Mathlib

/-
Verification of the minio-ratelimit probe and telemetry pipeline.

The definitions below are shallow embeddings of the Python sources:
  bin/tests/test/test_advanced_rate_limiting.py  (S3AuthSimulator, test_request,
      run_sustained_test, run_group_comparison_test)
  bin/tests/test_rate_limit.py                   (run_load_test, analyze_results)
  bin/tests/test_individual_limits.py            (test_api_key)
  test/test_rate_limiting.py                     (RateLimitTester)
  cmd/ratelimit-test/ingest_hyperdx.py           (MinIOHyperDXIngester)
  cmd/ratelimit-test/import_data.py              (import_results_to_clickhouse)

Wall-clock time is modelled in integer milliseconds.  The latency and the
HTTP answer of each request are inputs (oracles), since the gateway under
test is external.  Python floats that only ever hold small counters or
averages are modelled as rationals.
-/

/-! ## String utilities

Python string operations used by the sources: str.lower, the substring
test (pat in s), and dictionary lookup.  Header maps are association
lists that keep the casing and the order in which the HTTP library
delivers the headers. -/

/-- Lowercase every character of a string, as Python str.lower does on
ASCII header names. -/
def lowerStr (s : String) : String := ⟨s.data.map Char.toLower⟩

/-- Decide whether the pattern list is an initial segment of the second list. -/
def startsWithL : List Char → List Char → Bool
  | [], _ => true
  | _ :: _, [] => false
  | a :: as, b :: bs => a == b && startsWithL as bs

/-- Decide whether the pattern occurs as a contiguous substring, as the
Python expression pat in s. -/
def hasSubL (pat : List Char) : List Char → Bool
  | [] => pat.isEmpty
  | s@(_ :: rest) => startsWithL pat s || hasSubL pat rest

/-- Substring test on strings, Python pat in s. -/
def strContains (s pat : String) : Bool := hasSubL pat.data s.data

/-- Header map: association list of header name and value, original casing
kept, in delivery order. -/
abbrev Headers := List (String × String)

/-- Exact, case-sensitive lookup: Python dict.get on a plain dict. -/
def getExact (hs : Headers) (k : String) : Option String :=
  match hs with
  | [] => none
  | (k₁, v₁) :: rest => if k₁ = k then some v₁ else getExact rest k

/-- Case-insensitive lookup: requests.structures.CaseInsensitiveDict.get,
used on response.headers by test_individual_limits.py. -/
def getCI (hs : Headers) (k : String) : Option String :=
  match hs with
  | [] => none
  | (k₁, v₁) :: rest => if lowerStr k₁ = lowerStr k then some v₁ else getCI rest k

/-- Lower the keys of a header map, forgetting only the casing of names. -/
def lowerKeys (hs : Headers) : Headers := hs.map (fun p => (lowerStr p.1, p.2))

/-! ## Response header snapshot (test_request, test_advanced_rate_limiting.py)

test_request walks response.headers.items() and keeps every header whose
lowercased name contains one of the substrings rate, api-key, auth; the kept
entries retain their original casing.  The kept map is the rate_info field
of the result dict. -/

/-- Filter predicate of test_request line 92: substring test on the
lowercased header name. -/
def keepHeaderName (k : String) : Bool :=
  strContains (lowerStr k) "rate" || strContains (lowerStr k) "api-key" ||
    strContains (lowerStr k) "auth"

/-- The rate_info snapshot built by test_request lines 90 to 93. -/
def rateInfoOf (hs : Headers) : Headers := hs.filter (fun p => keepHeaderName p.1)

/-! ## Probe results (result dicts of test_request)

A result dict either carries status_code, rate_info and timestamp (the
request returned), or carries an error message and timestamp (the request
raised).  The two shapes never mix: the success branch never stores an
error key and the except branch never stores a status_code. -/

/-- One result dict produced by test_request. -/
inductive SimResult where
  | ok (status : Nat) (rateInfo : Headers) (timestamp : Nat)
  | fail (msg : String) (timestamp : Nat)
deriving DecidableEq

/-- Python r.get, with the status_code key: none on an error dict. -/
def statusOf : SimResult → Option Nat
  | .ok s _ _ => some s
  | .fail _ _ => none

/-- Python membership test for the error key in a result dict. -/
def hasErrorKey : SimResult → Bool
  | .ok _ _ _ => false
  | .fail _ _ => true

/-- Python r.get with the rate_info key, defaulting to the empty dict. -/
def resultRateInfo : SimResult → Headers
  | .ok _ ri _ => ri
  | .fail _ _ => []

/-- Timestamp recorded in the result dict (time.time moment the request
finished or raised). -/
def timestampOf : SimResult → Nat
  | .ok _ _ t => t
  | .fail _ t => t

/-! ## Classification counts (run_sustained_test lines 184 to 186 and
analyze_results lines 77 to 79)

success counts status_code equal to 200, rate limited counts status_code
equal to 429, errors counts dicts carrying the error key.  There is no
bucket for any other status. -/

/-- Count of results whose status_code is 200. -/
def successCount (rs : List SimResult) : Nat :=
  (rs.filter (fun r => statusOf r = some 200)).length

/-- Count of results whose status_code is 429. -/
def rateLimitedCount (rs : List SimResult) : Nat :=
  (rs.filter (fun r => statusOf r = some 429)).length

/-- Count of results carrying the error key. -/
def errorCount (rs : List SimResult) : Nat :=
  (rs.filter (fun r => hasErrorKey r)).length

/-- Python len of the results list: the total_requests figure of
run_sustained_test line 200. -/
def totalRequests (rs : List SimResult) : Nat := rs.length

/-! ## Authentication simulator (S3AuthSimulator and the test_request
dispatch, test_advanced_rate_limiting.py lines 15 to 84)

The simulator is a pure function of the access key and of the current
timestamps; the timestamp strings are parameters here because
datetime.utcnow varies.  test_request starts from a base header dict with
only User-Agent, then the if/elif chain on auth_method updates headers or
params; a value that matches no branch leaves both maps untouched. -/

/-- Base headers of test_request line 71. -/
def baseHeaders : Headers := [("User-Agent", "test-client/2.0")]

/-- Headers built by create_v4_auth_header; host stays at its default
localhost because the call site passes only method and path. -/
def createV4AuthHeader (accessKey ts ds : String) : Headers :=
  [("Authorization",
      "AWS4-HMAC-SHA256 Credential=" ++ accessKey ++ "/" ++ ds ++
        "/us-east-1/s3/aws4_request, SignedHeaders=host;x-amz-date, Signature=dummy-signature"),
   ("X-Amz-Date", ts),
   ("Host", "localhost")]

/-- Headers built by create_v2_auth_header. -/
def createV2AuthHeader (accessKey date : String) : Headers :=
  [("Authorization", "AWS " ++ accessKey ++ ":dummy-signature-v2"),
   ("Date", date)]

/-- Query parameters built by create_presigned_url_params with the default
expiry of 3600 seconds. -/
def createPresignedUrlParams (accessKey ts ds : String) : Headers :=
  [("X-Amz-Algorithm", "AWS4-HMAC-SHA256"),
   ("X-Amz-Credential", accessKey ++ "/" ++ ds ++ "/us-east-1/s3/aws4_request"),
   ("X-Amz-Date", ts),
   ("X-Amz-Expires", "3600"),
   ("X-Amz-SignedHeaders", "host"),
   ("X-Amz-Signature", "dummy-presigned-signature")]

/-- Authentication material: the header map and the query parameter map
attached to the outgoing request. -/
structure AuthMaterial where
  headers : Headers
  params : Headers
deriving DecidableEq

/-- The if/elif dispatch of test_request lines 74 to 84.  A scheme matching
no branch falls through: the request keeps the base headers and the empty
query map, and no error of any kind is raised. -/
def buildAuthMaterial (scheme accessKey ts ds date : String) : AuthMaterial :=
  if scheme = "v4" then ⟨baseHeaders ++ createV4AuthHeader accessKey ts ds, []⟩
  else if scheme = "v2" then ⟨baseHeaders ++ createV2AuthHeader accessKey date, []⟩
  else if scheme = "presigned" then ⟨baseHeaders, createPresignedUrlParams accessKey ts ds⟩
  else if scheme = "query_v2" then
    ⟨baseHeaders, [("AWSAccessKeyId", accessKey), ("Signature", "dummy-signature")]⟩
  else if scheme = "custom" then ⟨baseHeaders ++ [("X-API-Key", accessKey)], []⟩
  else ⟨baseHeaders, []⟩

/-- One outgoing HTTP request as handed to requests.request. -/
structure HttpRequest where
  method : String
  url : String
  headers : Headers
  params : Headers
deriving DecidableEq

/-- The request test_request dispatches at line 87, for any scheme string:
the function always reaches the dispatch, there is no validation step. -/
def testRequestOutgoing (baseUrl scheme accessKey method path ts ds date : String) :
    HttpRequest :=
  let m := buildAuthMaterial scheme accessKey ts ds date
  { method := method, url := baseUrl ++ path, headers := m.headers, params := m.params }

/-- Choices list of the argparse auth-method flag (line 251): the only
place an unknown scheme is rejected, outside test_request. -/
def cliAuthMethodChoices : List String := ["v4", "v2", "presigned", "query_v2", "custom"]

/-! ## Rate-controlled window loop (run_sustained_test lines 160 to 181 and
run_load_test lines 50 to 73)

The loop runs while elapsed wall time is below the duration.  Each
iteration records batch_start, submits exactly rate requests to the worker
pool, blocks on every future of the batch, and sleeps for the remainder of
the one-second window when the batch finished early.  The oracle compl
gives, for window w and request i, the offset in milliseconds from
batch_start at which that request completes (queueing inside the pool
included); the oracle resp gives the HTTP answer, none meaning the request
raised. -/

/-- Answer oracle: status code and response headers, or a raised exception. -/
abbrev RespOracle := Nat → Nat → Option (Nat × Headers)

/-- Completion oracle: offset of each completion from batch_start. -/
abbrev ComplOracle := Nat → Nat → Nat

/-- Maximum of a list of naturals, zero on the empty list. -/
def listMax (l : List Nat) : Nat := l.foldr Nat.max 0

/-- Elapsed time of one batch: the collection loop returns when the last
future of the window has resolved. -/
def batchElapsed (rate : Nat) (compl : ComplOracle) (w : Nat) : Nat :=
  listMax ((List.range rate).map (compl w))

/-- The result dict of request i of window w, its timestamp taken when the
request finishes or raises. -/
def mkResult (resp : RespOracle) (compl : ComplOracle) (w e i : Nat) : SimResult :=
  match resp w i with
  | some (s, hs) => .ok s (rateInfoOf hs) (e + compl w i)
  | none => .fail "error" (e + compl w i)

/-- One window of the run: batch_start and the results collected for the
batch, in submission order (the order of the futures list). -/
structure WindowLog where
  start : Nat
  results : List SimResult
deriving DecidableEq

/-- The window submitted at elapsed time e. -/
def mkWindow (rate : Nat) (compl : ComplOracle) (resp : RespOracle) (w e : Nat) : WindowLog :=
  ⟨e, (List.range rate).map (mkResult resp compl w e)⟩

/-- The while loop of run_sustained_test and run_load_test.  Time advances
by the batch time, then by the pacing sleep up to the full second when the
batch was faster; there is no other control flow, in particular no
validation of rate and no catch-up of late windows. -/
def windowLoop (rate dur : Nat) (compl : ComplOracle) (resp : RespOracle)
    (w e : Nat) : List WindowLog :=
  if _h : e < dur then
    mkWindow rate compl resp w e ::
      windowLoop rate dur compl resp (w + 1) (e + Nat.max (batchElapsed rate compl w) 1000)
  else []
termination_by dur - e
decreasing_by
  have h2 : 1000 ≤ Nat.max (batchElapsed rate compl w) 1000 := Nat.le_max_right _ _
  omega

/-- A full run from time zero, flattened into the single results list of
the source (results.append order: window by window, submission order
inside a window). -/
def runResults (rate dur : Nat) (compl : ComplOracle) (resp : RespOracle) : List SimResult :=
  ((windowLoop rate dur compl resp 0 0).map WindowLog.results).flatten

/-- Worker pool size of run_sustained_test line 163, written as a function
of the requested rate to state that it does not depend on it. -/
def sustainedPoolSize (_rate : Nat) : Nat := 10

/-- Worker pool size of run_load_test line 53. -/
def loadTestPoolSize (_rate : Nat) : Nat := 20

/-! ## Detected group (run_sustained_test lines 188 to 194)

The loop scans the results in list order and stops at the first result
whose rate_info maps X-RateLimit-Group to a truthy value: the lookup is an
exact-case dict access and an empty string is falsy in Python, so a result
carrying the key with the empty value is skipped like a result without the
key. -/

/-- The detected_group computation of run_sustained_test. -/
def detectedGroup : List SimResult → Option String
  | [] => none
  | r :: rest =>
    match getExact (resultRateInfo r) "X-RateLimit-Group" with
    | some v => if v = "" then detectedGroup rest else some v
    | none => detectedGroup rest

/-- Reading of claim C10, for comparison: take the first result whose
rate_info contains the key at all, regardless of the value. -/
def detectedGroupFirstKey : List SimResult → Option String
  | [] => none
  | r :: rest =>
    match getExact (resultRateInfo r) "X-RateLimit-Group" with
    | some v => some v
    | none => detectedGroupFirstKey rest

/-- A result whose rate_info maps X-RateLimit-Group to a truthy value:
the condition under which the scan of run_sustained_test stops. -/
def hasTruthyGroup (r : SimResult) : Bool :=
  match getExact (resultRateInfo r) "X-RateLimit-Group" with
  | some v => !(v = "")
  | none => false

/-- Group value read from a result, empty when absent. -/
def groupValueOf (r : SimResult) : String :=
  (getExact (resultRateInfo r) "X-RateLimit-Group").getD ""

/-! ## Telemetry extraction of test_individual_limits.py (lines 13 to 18)

Each request records three header values through response.headers.get,
which is the case-insensitive dictionary of the requests library, with the
lowercase canonical names and default N/A. -/

/-- Per-request status row of test_api_key. -/
structure KeyStatusRow where
  currentRate : String
  group : String
  limit : String
deriving DecidableEq

/-- The extraction of test_api_key from one response header map. -/
def keyStatusOf (hs : Headers) : KeyStatusRow :=
  { currentRate := (getCI hs "x-ratelimit-current-per-minute").getD "N/A"
    group := (getCI hs "x-ratelimit-group").getD "N/A"
    limit := (getCI hs "x-ratelimit-limit-per-minute").getD "N/A" }

/-! ## Telemetry ingestion (ingest_hyperdx.py and import_data.py)

Input records are the ByGroup entries of the exported run summary; every
field read through dict.get is optional.  The JSON floats here only carry
averages and ratios, modelled as rationals. -/

/-- One throttle event of a RateLimitAnalysis block.  The Timestamp field
is indexed directly by ingest_throttle_events, so it is required; the
remaining fields are read with defaults. -/
structure ThrottleEventData where
  timestampStr : String
  group : Option String
  method : Option String
  remainingReqs : Option Nat
  resetIn : Option Nat
deriving DecidableEq

/-- Optional RateLimitAnalysis block of one group. -/
structure RateLimitAnalysisData where
  effectiveLimit : Option Nat
  observedBursts : Option Nat
  successRate : Option ℚ
  throttleEvents : Option (List ThrottleEventData)
deriving DecidableEq

/-- One ByGroup entry of the exported summary; every field the ingesters
read with dict.get is optional. -/
structure GroupData where
  apiKey : Option String
  method : Option String
  requestsSent : Option Nat
  success : Option Nat
  rateLimited : Option Nat
  errors : Option Nat
  avgLatencyMs : Option ℚ
  authMethod : Option String
  rateLimitGroup : Option String
  burstHits : Option Nat
  minuteHits : Option Nat
  rateLimitAnalysis : Option RateLimitAnalysisData
deriving DecidableEq

/-- Row of the test_results table as built by ingest_group_results. -/
structure TestResultRow where
  testGroup : String
  apiKey : String
  method : String
  requestsSent : Nat
  successCount : Nat
  rateLimitedCount : Nat
  errorCount : Nat
  avgLatencyMs : ℚ
  authMethod : String
  rateLimitGroup : String
  burstHits : Nat
  minuteHits : Nat
  effectiveLimit : Nat
  observedBursts : Nat
  successRate : ℚ
deriving DecidableEq

/-- Empty RateLimitAnalysis dict used by ingest_group_results when the
group has none. -/
def emptyAnalysis : RateLimitAnalysisData := ⟨none, none, none, none⟩

/-- The insert row built by ingest_group_results lines 167 to 195: each
absent field is replaced by the dict.get default, never rejected. -/
def buildTestResultRow (groupName : String) (g : GroupData) : TestResultRow :=
  let rla := g.rateLimitAnalysis.getD emptyAnalysis
  { testGroup := groupName
    apiKey := g.apiKey.getD ""
    method := g.method.getD "Combined"
    requestsSent := g.requestsSent.getD 0
    successCount := g.success.getD 0
    rateLimitedCount := g.rateLimited.getD 0
    errorCount := g.errors.getD 0
    avgLatencyMs := g.avgLatencyMs.getD 0
    authMethod := g.authMethod.getD ""
    rateLimitGroup := g.rateLimitGroup.getD ""
    burstHits := g.burstHits.getD 0
    minuteHits := g.minuteHits.getD 0
    effectiveLimit := rla.effectiveLimit.getD 0
    observedBursts := rla.observedBursts.getD 0
    successRate := rla.successRate.getD 0 }

/-- Row of the throttle_events table as built by ingest_throttle_events
lines 210 to 221. -/
structure ThrottleRow where
  timestampStr : String
  group : String
  method : String
  remainingRequests : Nat
  resetInSeconds : Nat
deriving DecidableEq

/-- The insert row built by ingest_throttle_events for one event: quota and
reset hints default to zero when absent. -/
def buildThrottleRow (groupName : String) (e : ThrottleEventData) : ThrottleRow :=
  { timestampStr := e.timestampStr
    group := e.group.getD groupName
    method := e.method.getD ""
    remainingRequests := e.remainingReqs.getD 0
    resetInSeconds := e.resetIn.getD 0 }

/-- Outcome of one store write as seen by the Python clients: HTTP 200, a
non-200 answer, or a raised requests exception. -/
inductive WriteOutcome where
  | accepted
  | httpRejected (msg : String)
  | connFailed (msg : String)
deriving DecidableEq

/-- Decide whether an outcome is a raised connection error. -/
def isConnFailure : WriteOutcome → Bool
  | .connFailed _ => true
  | _ => false

/-- The record loop of ingest_group_results lines 167 to 201: execute_sql
catches every requests exception and turns every outcome into a returned
string, so the for loop always advances to the next record; the write log
pairs each record with the outcome of its attempt. -/
def ingestGroupResultsLoop {R : Type} (store : R → WriteOutcome) :
    List R → List (R × WriteOutcome)
  | [] => []
  | r :: rest => (r, store r) :: ingestGroupResultsLoop store rest

/-- The record loop of import_results_to_clickhouse lines 48 to 66: a
non-200 answer is printed and the loop continues, but a raised requests
exception returns False from inside the loop, abandoning every record not
yet attempted. -/
def importDataLoop {R : Type} (store : R → WriteOutcome) :
    List R → List (R × WriteOutcome) × Bool
  | [] => ([], true)
  | r :: rest =>
    match store r with
    | .connFailed m => ([(r, .connFailed m)], false)
    | o =>
      let p := importDataLoop store rest
      ((r, o) :: p.1, p.2)

/-! ## Boto-based tester (test_rate_limiting.py, test_rate_limiting method)

Each request increments exactly one of the three counters, and the total
of line 149 is computed as their sum. -/

/-- Counter state of the boto tester. -/
structure BotoCounters where
  successful : Nat
  rateLimited : Nat
  errors : Nat
deriving DecidableEq

/-- Outcome of one boto request: success, SlowDown, another client error,
or a raised exception. -/
inductive BotoOutcome where
  | ok
  | slowDown
  | clientError (code : String)
  | exn (msg : String)
deriving DecidableEq

/-- The classification of make_request lines 108 to 133: one counter
increments per request. -/
def botoStep (c : BotoCounters) : BotoOutcome → BotoCounters
  | .ok => { c with successful := c.successful + 1 }
  | .slowDown => { c with rateLimited := c.rateLimited + 1 }
  | .clientError _ => { c with errors := c.errors + 1 }
  | .exn _ => { c with errors := c.errors + 1 }

/-- Folding a whole run of boto outcomes from the zero counters. -/
def botoRun (os : List BotoOutcome) : BotoCounters :=
  os.foldl botoStep ⟨0, 0, 0⟩

/-- The total_requests figure of line 149, defined as the sum of the three
counters. -/
def botoTotalRequests (c : BotoCounters) : Nat :=
  c.successful + c.rateLimited + c.errors

/-! ## Helper lemmas -/

/-- Number of buckets one result falls into under the classification of
run_sustained_test and analyze_results. -/
def bucketCount (r : SimResult) : Nat :=
  (if statusOf r = some 200 then 1 else 0) + (if statusOf r = some 429 then 1 else 0) +
    (if hasErrorKey r then 1 else 0)

lemma bucketCount_le_one (r : SimResult) : bucketCount r ≤ 1 := by
  rcases r with ⟨s, ri, t⟩ | ⟨m, t⟩
  · by_cases h1 : s = 200 <;> by_cases h2 : s = 429 <;>
      simp [bucketCount, statusOf, hasErrorKey, h1, h2]
  · simp [bucketCount, statusOf, hasErrorKey]

lemma bucketCount_eq_one_iff (r : SimResult) :
    bucketCount r = 1 ↔
      (statusOf r = some 200 ∨ statusOf r = some 429 ∨ hasErrorKey r = true) := by
  rcases r with ⟨s, ri, t⟩ | ⟨m, t⟩
  · by_cases h1 : s = 200 <;> by_cases h2 : s = 429 <;>
      simp [bucketCount, statusOf, hasErrorKey, h1, h2]
  · simp [bucketCount, statusOf, hasErrorKey]

lemma counts_cons (r : SimResult) (rs : List SimResult) :
    successCount (r :: rs) + rateLimitedCount (r :: rs) + errorCount (r :: rs) =
      (successCount rs + rateLimitedCount rs + errorCount rs) + bucketCount r := by
  simp only [successCount, rateLimitedCount, errorCount, bucketCount, List.filter_cons]
  by_cases h1 : statusOf r = some 200 <;> by_cases h2 : statusOf r = some 429 <;>
    by_cases h3 : hasErrorKey r <;> simp [h1, h2, h3] <;> omega

lemma botoStep_total (c : BotoCounters) (o : BotoOutcome) :
    botoTotalRequests (botoStep c o) = botoTotalRequests c + 1 := by
  cases o <;> simp [botoStep, botoTotalRequests] <;> omega

lemma botoFold_total (os : List BotoOutcome) :
    ∀ c : BotoCounters, botoTotalRequests (os.foldl botoStep c) =
      botoTotalRequests c + os.length := by
  induction os with
  | nil => intro c; simp
  | cons o rest ih =>
    intro c
    simp only [List.foldl_cons, ih (botoStep c o), botoStep_total, List.length_cons]
    omega

/-- C1, amended: the three buckets are pairwise disjoint, so their counts
sum to at most the length of the results list, and the sum equals the
length exactly when every result has status 200, status 429, or carries a
transport error; a result with any other HTTP status is counted in no
bucket.  In the boto tester, where every request increments exactly one
counter and the total is computed as the sum, the sum equals the number of
requests for every run. -/
theorem C1_bucket_sum_amended (rs : List SimResult) :
    (∀ os : List BotoOutcome, botoTotalRequests (botoRun os) = os.length) ∧
    successCount rs + rateLimitedCount rs + errorCount rs ≤ totalRequests rs ∧
    (successCount rs + rateLimitedCount rs + errorCount rs = totalRequests rs ↔
      ∀ r ∈ rs, statusOf r = some 200 ∨ statusOf r = some 429 ∨ hasErrorKey r = true) := by
  refine ⟨fun os => by simpa [botoRun, botoTotalRequests] using botoFold_total os ⟨0, 0, 0⟩, ?_⟩
  induction rs with
  | nil => simp [successCount, rateLimitedCount, errorCount, totalRequests]
  | cons r rs ih =>
    have hc := counts_cons r rs
    have hb := bucketCount_le_one r
    have hbi := bucketCount_eq_one_iff r
    have hlen : totalRequests (r :: rs) = totalRequests rs + 1 := by
      simp [totalRequests]
    constructor
    · omega
    · rw [hc, hlen]
      constructor
      · intro h x hx
        have hsum : successCount rs + rateLimitedCount rs + errorCount rs = totalRequests rs ∧
            bucketCount r = 1 := by omega
        rcases List.mem_cons.mp hx with hx | hx
        · subst hx; exact hbi.mp hsum.2
        · exact (ih.2.mp hsum.1) x hx
      · intro h
        have h1 : bucketCount r = 1 := hbi.mpr (h r (List.mem_cons_self r rs))
        have h2 : successCount rs + rateLimitedCount rs + errorCount rs = totalRequests rs :=
          ih.2.mpr (fun x hx => h x (List.mem_cons_of_mem r hx))
        omega

/-- C1, counterexample: a result dict with status 403 (the gateway
rejecting a dummy signature) is counted in none of the three buckets, so
the bucket counts sum to 0 while the results list has length 1. -/
theorem C1_counterexample :
    successCount [SimResult.ok 403 [] 0] + rateLimitedCount [SimResult.ok 403 [] 0] +
        errorCount [SimResult.ok 403 [] 0] = 0 ∧
      totalRequests [SimResult.ok 403 [] 0] = 1 := by decide

/-- C5, counterexample: the scheme token matches none of the five
dispatch branches, yet test_request raises nothing and dispatches the
request with the base headers and an empty query map, that is with no
authentication material at all; only the argparse choices list, outside
the function, knows the five schemes. -/
theorem C5_counterexample :
    testRequestOutgoing "http://localhost" "token" "k" "GET" "/b/o" "t" "d" "dt" =
      { method := "GET", url := "http://localhost/b/o", headers := baseHeaders, params := [] } ∧
    ("token" ∈ cliAuthMethodChoices → False) := by
  constructor
  · decide
  · intro h; revert h; decide

/-- C5, amended: an unknown scheme is rejected only by the argparse
choices of the command line; the credential constructor itself raises no
error for it and silently attaches no authentication material, so the
request is dispatched with the base headers and no query credentials. -/
theorem C5_unknown_scheme_amended (scheme accessKey ts ds date baseUrl method path : String)
    (h : scheme ∉ cliAuthMethodChoices) :
    buildAuthMaterial scheme accessKey ts ds date = ⟨baseHeaders, []⟩ ∧
    (testRequestOutgoing baseUrl scheme accessKey method path ts ds date).headers = baseHeaders ∧
    (testRequestOutgoing baseUrl scheme accessKey method path ts ds date).params = [] ∧
    cliAuthMethodChoices = ["v4", "v2", "presigned", "query_v2", "custom"] := by
  simp only [cliAuthMethodChoices, List.mem_cons, List.not_mem_nil, or_false, not_or] at h
  obtain ⟨h1, h2, h3, h4, h5⟩ := h
  refine ⟨?_, ?_, ?_, rfl⟩ <;>
    simp [buildAuthMaterial, testRequestOutgoing, h1, h2, h3, h4, h5]

/-- C5, witness for the amended theorem at the concrete scheme token. -/
theorem C5_unknown_scheme_amended_witness :
    "token" ∉ cliAuthMethodChoices ∧
      buildAuthMaterial "token" "k" "t" "d" "dt" = ⟨baseHeaders, []⟩ := by
  refine ⟨by decide, ?_⟩
  exact (C5_unknown_scheme_amended "token" "k" "t" "d" "dt" "http://localhost" "GET" "/b/o"
    (by decide)).1

/-- Shared helper: the ingest_hyperdx record loop attempts every record. -/
lemma ingestLoop_attempts_all {R : Type} (store : R → WriteOutcome) (rs : List R) :
    (ingestGroupResultsLoop store rs).map Prod.fst = rs := by
  induction rs with
  | nil => rfl
  | cons r rest ih => simp [ingestGroupResultsLoop, ih]

/-- Shared helper: processing later records appends to the write log and
never rewrites the writes already attempted. -/
lemma ingestLoop_append {R : Type} (store : R → WriteOutcome) (l₁ l₂ : List R) :
    ingestGroupResultsLoop store (l₁ ++ l₂) =
      ingestGroupResultsLoop store l₁ ++ ingestGroupResultsLoop store l₂ := by
  induction l₁ with
  | nil => rfl
  | cons r rest ih => simp [ingestGroupResultsLoop, ih]

/-- C8, amended: the ingest_hyperdx loop attempts every record of the
batch whatever the store answers, and later records only extend the write
log; the import_data loop also attempts every record as long as no write
raises a connection error, but a raised connection error abandons the
records not yet attempted. -/
theorem C8_ingestion_amended {R : Type} (store : R → WriteOutcome) (rs : List R) :
    (ingestGroupResultsLoop store rs).map Prod.fst = rs ∧
    (∀ l₂ : List R, ingestGroupResultsLoop store (rs ++ l₂) =
      ingestGroupResultsLoop store rs ++ ingestGroupResultsLoop store l₂) ∧
    ((∀ r ∈ rs, isConnFailure (store r) = false) →
      (importDataLoop store rs).1.map Prod.fst = rs ∧ (importDataLoop store rs).2 = true) := by
  refine ⟨ingestLoop_attempts_all store rs, fun l₂ => ingestLoop_append store rs l₂, ?_⟩
  intro hc
  induction rs with
  | nil => simp [importDataLoop]
  | cons r rest ih =>
    have hr : isConnFailure (store r) = false := hc r (List.mem_cons_self r rest)
    have hrest := ih (fun x hx => hc x (List.mem_cons_of_mem r hx))
    rcases ho : store r with _ | m | m
    · simpa [importDataLoop, ho] using hrest
    · simpa [importDataLoop, ho] using hrest
    · rw [ho] at hr; simp [isConnFailure] at hr

/-- C8, witness for the amended theorem on a two-record batch with one
rejected write. -/
theorem C8_ingestion_amended_witness :
    (∀ r ∈ [0, 1], isConnFailure ((fun n => if n = 0 then WriteOutcome.httpRejected "e"
        else WriteOutcome.accepted) r) = false) ∧
      (importDataLoop (fun n => if n = 0 then WriteOutcome.httpRejected "e"
        else WriteOutcome.accepted) [0, 1]).1.map Prod.fst = [0, 1] := by
  refine ⟨by decide, ?_⟩
  exact ((C8_ingestion_amended (fun n => if n = 0 then WriteOutcome.httpRejected "e"
    else WriteOutcome.accepted) [0, 1]).2.2 (by decide)).1

/-- Store behaviour refuting claim C8: the first write raises a
connection error, the second would be accepted. -/
def c8Store : Nat → WriteOutcome := fun n => if n = 0 then .connFailed "refused" else .accepted

/-- C8, counterexample: when the first of two records hits a connectivity
failure, import_results_to_clickhouse returns False from inside the loop
and the second record is never attempted, while the ingest_hyperdx loop
attempts both. -/
theorem C8_counterexample :
    (importDataLoop c8Store [0, 1]).1.map Prod.fst = [0] ∧
    (importDataLoop c8Store [0, 1]).2 = false ∧
    (ingestGroupResultsLoop c8Store [0, 1]).map Prod.fst = [0, 1] := by decide

/-- C9: group entries whose optional RateLimitAnalysis fields are absent,
whether the whole block or single fields are missing, and throttle events
without quota or reset hints, are still turned into rows, with the missing
fields stored as zero, and the row of every group is attempted against the
store rather than the write being failed. -/
theorem C9_missing_fields (name : String) (g : GroupData) (e : ThrottleEventData)
    (hEL : (g.rateLimitAnalysis.getD emptyAnalysis).effectiveLimit = none)
    (hOB : (g.rateLimitAnalysis.getD emptyAnalysis).observedBursts = none)
    (hSR : (g.rateLimitAnalysis.getD emptyAnalysis).successRate = none)
    (he₁ : e.remainingReqs = none) (he₂ : e.resetIn = none) :
    (buildTestResultRow name g).effectiveLimit = 0 ∧
    (buildTestResultRow name g).observedBursts = 0 ∧
    (buildTestResultRow name g).successRate = 0 ∧
    (buildThrottleRow name e).remainingRequests = 0 ∧
    (buildThrottleRow name e).resetInSeconds = 0 ∧
    (∀ store : TestResultRow → WriteOutcome, ∀ gs : List (String × GroupData),
      (ingestGroupResultsLoop store (gs.map (fun p => buildTestResultRow p.1 p.2))).map
          Prod.fst = gs.map (fun p => buildTestResultRow p.1 p.2)) := by
  refine ⟨?_, ?_, ?_, ?_, ?_, fun store gs => ingestLoop_attempts_all store _⟩ <;>
    simp [buildTestResultRow, buildThrottleRow, hEL, hOB, hSR, he₁, he₂]

/-- C9, witness: a group with no RateLimitAnalysis block at all and an
event with no hints. -/
theorem C9_missing_fields_witness :
    (buildTestResultRow "premium"
        ⟨none, none, none, none, none, none, none, none, none, none, none, none⟩).effectiveLimit
        = 0 ∧
    (buildThrottleRow "premium" ⟨"2025-01-01T00:00:00", none, none, none, none⟩).remainingRequests
        = 0 := by
  refine ⟨?_, ?_⟩
  · exact (C9_missing_fields "premium"
      ⟨none, none, none, none, none, none, none, none, none, none, none, none⟩
      ⟨"2025-01-01T00:00:00", none, none, none, none⟩
      (by decide) (by decide) (by rfl) (by decide) (by decide)).1
  · exact (C9_missing_fields "premium"
      ⟨none, none, none, none, none, none, none, none, none, none, none, none⟩
      ⟨"2025-01-01T00:00:00", none, none, none, none⟩
      (by decide) (by decide) (by rfl) (by decide) (by decide)).2.2.2.1

/-- C10, amended: the detected group of a sustained run is the group value
of the first delivered result whose rate_info maps X-RateLimit-Group, by
exact-case key match, to a non-empty value; a result carrying the key with
the empty string is skipped exactly like a result without the key, and the
detected group is None when no result carries a non-empty value. -/
theorem C10_detected_group_amended (rs : List SimResult) :
    detectedGroup rs = (rs.find? hasTruthyGroup).map groupValueOf ∧
    ((∀ r ∈ rs, hasTruthyGroup r = false) → detectedGroup rs = none) := by
  have hmain : detectedGroup rs = (rs.find? hasTruthyGroup).map groupValueOf := by
    induction rs with
    | nil => rfl
    | cons r rest ih =>
      by_cases hr : hasTruthyGroup r = true
      · rw [List.find?_cons_of_pos _ hr]
        rcases hg : getExact (resultRateInfo r) "X-RateLimit-Group" with _ | v
        · simp [hasTruthyGroup, hg] at hr
        · by_cases hv : v = ""
          · simp [hasTruthyGroup, hg, hv] at hr
          · simp [detectedGroup, groupValueOf, hg, hv]
      · rw [List.find?_cons_of_neg _ hr, ← ih]
        rcases hg : getExact (resultRateInfo r) "X-RateLimit-Group" with _ | v
        · simp [detectedGroup, hg]
        · have hv : v = "" := by
            by_contra hv
            simp [hasTruthyGroup, hg, hv] at hr
          simp [detectedGroup, hg, hv]
  refine ⟨hmain, fun hall => ?_⟩
  rw [hmain, List.find?_eq_none.mpr (fun r hr => by simp [hall r hr])]
  rfl

/-- C10, witness for the amended theorem: a run whose first result carries
the key with the empty value and whose second carries basic. -/
theorem C10_detected_group_amended_witness :
    detectedGroup [SimResult.ok 200 [("X-RateLimit-Group", "")] 0,
        SimResult.ok 429 [("X-RateLimit-Group", "basic")] 1] =
      (([SimResult.ok 200 [("X-RateLimit-Group", "")] 0,
        SimResult.ok 429 [("X-RateLimit-Group", "basic")] 1].find?
          hasTruthyGroup).map groupValueOf) :=
  (C10_detected_group_amended [SimResult.ok 200 [("X-RateLimit-Group", "")] 0,
    SimResult.ok 429 [("X-RateLimit-Group", "basic")] 1]).1

/-- C10, counterexample: the first delivered result contains the key
X-RateLimit-Group, with the empty string as value, yet the run reports the
group of the second result; the reading of the claim, first result that
contains the key, would report the empty string instead. -/
theorem C10_counterexample :
    getExact (resultRateInfo (SimResult.ok 200 [("X-RateLimit-Group", "")] 0))
        "X-RateLimit-Group" = some "" ∧
    detectedGroup [SimResult.ok 200 [("X-RateLimit-Group", "")] 0,
        SimResult.ok 429 [("X-RateLimit-Group", "basic")] 1] = some "basic" ∧
    detectedGroupFirstKey [SimResult.ok 200 [("X-RateLimit-Group", "")] 0,
        SimResult.ok 429 [("X-RateLimit-Group", "basic")] 1] = some "" := by decide

/-! ## Window loop lemmas -/

lemma le_listMax_of_mem {x : Nat} {l : List Nat} (h : x ∈ l) : x ≤ listMax l := by
  induction l with
  | nil => cases h
  | cons a t ih =>
    rcases List.mem_cons.mp h with rfl | h
    · exact Nat.le_max_left _ _
    · exact le_trans (ih h) (Nat.le_max_right _ _)

lemma compl_le_batchElapsed (rate : Nat) (compl : ComplOracle) (w i : Nat) (hi : i < rate) :
    compl w i ≤ batchElapsed rate compl w :=
  le_listMax_of_mem (List.mem_map_of_mem (compl w) (List.mem_range.mpr hi))

lemma timestampOf_mkResult (resp : RespOracle) (compl : ComplOracle) (w e i : Nat) :
    timestampOf (mkResult resp compl w e i) = e + compl w i := by
  unfold mkResult
  rcases resp w i with _ | ⟨s, hs⟩ <;> rfl

lemma mem_mkWindow_results {r : SimResult} {rate : Nat} {compl : ComplOracle}
    {resp : RespOracle} {w e : Nat} (h : r ∈ (mkWindow rate compl resp w e).results) :
    ∃ i, i < rate ∧ r = mkResult resp compl w e i := by
  unfold mkWindow at h
  obtain ⟨i, hi, rfl⟩ := List.mem_map.mp h
  exact ⟨i, List.mem_range.mp hi, rfl⟩

lemma mkWindow_ts_bounds {r : SimResult} {rate : Nat} {compl : ComplOracle}
    {resp : RespOracle} {w e : Nat} (h : r ∈ (mkWindow rate compl resp w e).results) :
    e ≤ timestampOf r ∧ timestampOf r ≤ e + batchElapsed rate compl w := by
  obtain ⟨i, hi, rfl⟩ := mem_mkWindow_results h
  rw [timestampOf_mkResult]
  exact ⟨Nat.le_add_right _ _, Nat.add_le_add_left (compl_le_batchElapsed rate compl w i hi) e⟩

lemma windowLoop_results_length (rate dur : Nat) (compl : ComplOracle) (resp : RespOracle) :
    ∀ n w e, dur - e ≤ n →
      ∀ win ∈ windowLoop rate dur compl resp w e, win.results.length = rate := by
  intro n
  induction n with
  | zero =>
    intro w e he win hwin
    rw [windowLoop.eq_def] at hwin
    have hnlt : ¬ e < dur := by omega
    simp [hnlt] at hwin
  | succ n ih =>
    intro w e he win hwin
    rw [windowLoop.eq_def] at hwin
    by_cases hlt : e < dur
    · simp only [hlt, dite_true] at hwin
      rcases List.mem_cons.mp hwin with rfl | hwin
      · simp [mkWindow]
      · have hmax : 1000 ≤ Nat.max (batchElapsed rate compl w) 1000 := Nat.le_max_right _ _
        exact ih (w + 1) (e + Nat.max (batchElapsed rate compl w) 1000) (by omega) win hwin
    · simp [hlt] at hwin

lemma windowLoop_ts_lb (rate dur : Nat) (compl : ComplOracle) (resp : RespOracle) :
    ∀ n w e, dur - e ≤ n →
      ∀ win ∈ windowLoop rate dur compl resp w e, ∀ r ∈ win.results, e ≤ timestampOf r := by
  intro n
  induction n with
  | zero =>
    intro w e he win hwin
    rw [windowLoop.eq_def] at hwin
    have hnlt : ¬ e < dur := by omega
    simp [hnlt] at hwin
  | succ n ih =>
    intro w e he win hwin r hr
    rw [windowLoop.eq_def] at hwin
    by_cases hlt : e < dur
    · simp only [hlt, dite_true] at hwin
      rcases List.mem_cons.mp hwin with rfl | hwin
      · exact (mkWindow_ts_bounds hr).1
      · have hmax : 1000 ≤ Nat.max (batchElapsed rate compl w) 1000 := Nat.le_max_right _ _
        have := ih (w + 1) (e + Nat.max (batchElapsed rate compl w) 1000) (by omega) win hwin r hr
        omega
    · simp [hlt] at hwin

/-- Ordering between two windows: every result of the first completes no
later than every result of the second. -/
def windowOrdered (w₁ w₂ : WindowLog) : Prop :=
  ∀ r ∈ w₁.results, ∀ r' ∈ w₂.results, timestampOf r ≤ timestampOf r'

lemma windowLoop_pairwise (rate dur : Nat) (compl : ComplOracle) (resp : RespOracle) :
    ∀ n w e, dur - e ≤ n →
      List.Pairwise windowOrdered (windowLoop rate dur compl resp w e) := by
  intro n
  induction n with
  | zero =>
    intro w e he
    rw [windowLoop.eq_def]
    have hnlt : ¬ e < dur := by omega
    simp [hnlt]
  | succ n ih =>
    intro w e he
    rw [windowLoop.eq_def]
    by_cases hlt : e < dur
    · simp only [hlt, dite_true]
      have hmax : 1000 ≤ Nat.max (batchElapsed rate compl w) 1000 := Nat.le_max_right _ _
      refine List.Pairwise.cons ?_ (ih (w + 1) (e + Nat.max (batchElapsed rate compl w) 1000)
        (by omega))
      intro win hwin r hr r' hr'
      have h1 : timestampOf r ≤ e + Nat.max (batchElapsed rate compl w) 1000 := by
        have := (mkWindow_ts_bounds hr).2
        have hle : batchElapsed rate compl w ≤ Nat.max (batchElapsed rate compl w) 1000 :=
          Nat.le_max_left _ _
        omega
      have h2 := windowLoop_ts_lb rate dur compl resp
        (dur - (e + Nat.max (batchElapsed rate compl w) 1000)) (w + 1)
        (e + Nat.max (batchElapsed rate compl w) 1000) le_rfl win hwin r' hr'
      omega
    · simp [hlt]

/-- Unconstrained endpoint of the rate-adherence property: every request
returns 200 with no telemetry headers. -/
def alwaysOk200 : RespOracle := fun _ _ => some (200, [])

/-- Zero-latency completion oracle. -/
def zeroLatency : ComplOracle := fun _ _ => 0

lemma listMax_map_zero (l : List Nat) : listMax (l.map (fun _ => 0)) = 0 := by
  induction l with
  | nil => rfl
  | cons a t ih => simpa [listMax] using ih

lemma batchElapsed_zeroLatency (rate w : Nat) : batchElapsed rate zeroLatency w = 0 := by
  unfold batchElapsed zeroLatency
  exact listMax_map_zero _

lemma batchElapsed_rate_zero (compl : ComplOracle) (w : Nat) :
    batchElapsed 0 compl w = 0 := rfl

lemma windowLoop_count (rate D : Nat) (compl : ComplOracle) (resp : RespOracle)
    (hbm : ∀ w, batchElapsed rate compl w = 0) :
    ∀ n k w, D - k = n → k ≤ D →
      (windowLoop rate (1000 * D) compl resp w (1000 * k)).length = D - k ∧
      ((windowLoop rate (1000 * D) compl resp w (1000 * k)).map
          (fun win => win.results.length)).sum = rate * (D - k) := by
  intro n
  induction n with
  | zero =>
    intro k w h0 hk
    have hkD : k = D := by omega
    subst hkD
    rw [windowLoop.eq_def]
    simp
  | succ n ih =>
    intro k w h1 hk
    have hkD : k < D := by omega
    have hlt : 1000 * k < 1000 * D := by omega
    rw [windowLoop.eq_def]
    simp only [hlt, dite_true]
    have he' : 1000 * k + Nat.max (batchElapsed rate compl w) 1000 = 1000 * (k + 1) := by
      rw [hbm w]
      simp [Nat.max_def]
      omega
    rw [he']
    have ihk := ih (k + 1) (w + 1) (by omega) (by omega)
    refine ⟨?_, ?_⟩
    · simp only [List.length_cons, ihk.1]
      omega
    · simp only [List.map_cons, List.sum_cons, ihk.2, mkWindow, List.length_map,
        List.length_range]
      have hm : D - k = (D - (k + 1)) + 1 := by omega
      rw [hm, Nat.mul_succ]
      omega

lemma runResults_length (rate dur : Nat) (compl : ComplOracle) (resp : RespOracle) :
    totalRequests (runResults rate dur compl resp) =
      ((windowLoop rate dur compl resp 0 0).map (fun win => win.results.length)).sum := by
  simp only [totalRequests, runResults, List.length_flatten, List.map_map]
  rfl

/-- C2: each iteration of the window loop submits exactly rate requests to
a worker pool whose size is a constant independent of the rate, waits for
every completion of the window (all timestamps precede the next window),
sleeps for the remainder of the one-second window when the batch finished
early, and when the batch took a second or longer the next window starts
immediately at the completion instant, one window per iteration with no
catch-up. -/
theorem C2_window_loop (rate dur : Nat) (compl : ComplOracle) (resp : RespOracle)
    (w e : Nat) (h : e < dur) :
    (∀ win ∈ windowLoop rate dur compl resp w e, win.results.length = rate) ∧
    (∀ r₁ r₂ : Nat, sustainedPoolSize r₁ = sustainedPoolSize r₂ ∧
      loadTestPoolSize r₁ = loadTestPoolSize r₂) ∧
    windowLoop rate dur compl resp w e =
      mkWindow rate compl resp w e ::
        windowLoop rate dur compl resp (w + 1)
          (e + Nat.max (batchElapsed rate compl w) 1000) ∧
    (∀ r ∈ (mkWindow rate compl resp w e).results,
      timestampOf r ≤ e + Nat.max (batchElapsed rate compl w) 1000) ∧
    (batchElapsed rate compl w ≤ 1000 →
      e + Nat.max (batchElapsed rate compl w) 1000 =
        (e + batchElapsed rate compl w) + (1000 - batchElapsed rate compl w)) ∧
    (1000 ≤ batchElapsed rate compl w →
      e + Nat.max (batchElapsed rate compl w) 1000 = e + batchElapsed rate compl w) := by
  refine ⟨windowLoop_results_length rate dur compl resp (dur - e) w e le_rfl,
    fun r₁ r₂ => ⟨rfl, rfl⟩, ?_, ?_, ?_, ?_⟩
  · rw [windowLoop.eq_def]
    exact dif_pos h
  · intro r hr
    have hb := (mkWindow_ts_bounds hr).2
    have hle : batchElapsed rate compl w ≤ Nat.max (batchElapsed rate compl w) 1000 :=
      Nat.le_max_left _ _
    omega
  · intro hb
    have : Nat.max (batchElapsed rate compl w) 1000 = 1000 := Nat.max_eq_right hb
    omega
  · intro hb
    have : Nat.max (batchElapsed rate compl w) 1000 = batchElapsed rate compl w :=
      Nat.max_eq_left hb
    omega

/-- C2, witness: the loop at rate 2 over a two-second run with the
zero-latency always-200 endpoint unfolds to its first window followed by
the rest of the loop. -/
theorem C2_window_loop_witness :
    (0 : Nat) < 2000 ∧
      windowLoop 2 2000 zeroLatency alwaysOk200 0 0 =
        mkWindow 2 zeroLatency alwaysOk200 0 0 ::
          windowLoop 2 2000 zeroLatency alwaysOk200 (0 + 1)
            (0 + Nat.max (batchElapsed 2 zeroLatency 0) 1000) :=
  ⟨by norm_num, (C2_window_loop 2 2000 zeroLatency alwaysOk200 0 0 (by norm_num)).2.2.1⟩

/-- C3: with a zero-latency endpoint that always answers 200, a run at
rate R for D seconds issues exactly R times D requests, in particular
within one window of R times D as the claim states. -/
theorem C3_rate_adherence (R D : Nat) (hR : 0 < R) (hD : 0 < D) :
    totalRequests (runResults R (1000 * D) zeroLatency alwaysOk200) = R * D ∧
    totalRequests (runResults R (1000 * D) zeroLatency alwaysOk200) ≤ R * D + R ∧
    R * D ≤ totalRequests (runResults R (1000 * D) zeroLatency alwaysOk200) + R := by
  have hbm : ∀ w, batchElapsed R zeroLatency w = 0 := batchElapsed_zeroLatency R
  have hc := windowLoop_count R D zeroLatency alwaysOk200 hbm D 0 0 (by omega) (by omega)
  have hr : totalRequests (runResults R (1000 * D) zeroLatency alwaysOk200) = R * D := by
    rw [runResults_length]
    have h2 := hc.2
    rw [Nat.mul_zero] at h2
    rw [h2, Nat.sub_zero]
  exact ⟨hr, by omega, by omega⟩

/-- C3, witness: two requests per second for three seconds yield exactly
six requests. -/
theorem C3_rate_adherence_witness :
    totalRequests (runResults 2 (1000 * 3) zeroLatency alwaysOk200) = 2 * 3 :=
  (C3_rate_adherence 2 3 (by norm_num) (by norm_num)).1

/-- Throttle timestamps of a results list, in append order: the timestamps
of the results whose status_code is 429. -/
def throttleTimestamps (rs : List SimResult) : List Nat :=
  (rs.filter (fun r => statusOf r = some 429)).map timestampOf

/-- Decide whether a list of naturals is non-decreasing left to right. -/
def chainLE : List Nat → Bool
  | [] => true
  | [_] => true
  | a :: b :: t => decide (a ≤ b) && chainLE (b :: t)

/-- C4, amended: timestamps are non-decreasing across windows; every
result of an earlier window of a run completes no later than every result
of a later window, because the loop waits for the whole batch before the
next window starts.  Inside one window the results are appended in
submission order while the timestamps are completion instants, so the
recorded order can disagree there. -/
theorem C4_throttle_order_amended (rate dur : Nat) (compl : ComplOracle)
    (resp : RespOracle) :
    List.Pairwise windowOrdered (windowLoop rate dur compl resp 0 0) :=
  windowLoop_pairwise rate dur compl resp (dur - 0) 0 0 le_rfl

/-- Completion offsets refuting claim C4: in the only window, the first
submitted request takes 400 ms and the second 100 ms. -/
def c4Compl : ComplOracle := fun _ i => if i = 0 then 400 else 100

/-- Endpoint refuting claim C4: every request is throttled with 429. -/
def c4Resp : RespOracle := fun _ _ => some (429, [])

/-- C4, counterexample: a run of one window with two throttled requests
whose completions race records the throttle timestamps 400 then 100 in
append order, a decreasing pair. -/
theorem C4_counterexample :
    throttleTimestamps (runResults 2 1000 c4Compl c4Resp) = [400, 100] ∧
    chainLE [400, 100] = false := by
  have h2 : windowLoop 2 1000 c4Compl c4Resp 1 1000 = [] := by
    rw [windowLoop.eq_def]
    norm_num
  have h1 : windowLoop 2 1000 c4Compl c4Resp 0 0 = [mkWindow 2 c4Compl c4Resp 0 0] := by
    rw [windowLoop.eq_def]
    norm_num
    rw [show Nat.max (batchElapsed 2 c4Compl 0) 1000 = 1000 from by decide]
    exact h2
  constructor
  · rw [throttleTimestamps, runResults, h1]
    decide
  · decide

/-- C6, counterexample: a run configured with rate 0 for three seconds is
not rejected: the window loop runs all three one-second windows, each
submitting zero requests, and returns normally with an empty results list
instead of a configuration error. -/
theorem C6_counterexample :
    (windowLoop 0 3000 zeroLatency alwaysOk200 0 0).length = 3 ∧
    windowLoop 0 3000 zeroLatency alwaysOk200 0 0 ≠ [] ∧
    totalRequests (runResults 0 3000 zeroLatency alwaysOk200) = 0 := by
  have hbm : ∀ w, batchElapsed 0 zeroLatency w = 0 := fun w => rfl
  have hc := windowLoop_count 0 3 zeroLatency alwaysOk200 hbm 3 0 0 (by omega) (by omega)
  have h3 : (1000 : Nat) * 3 = 3000 := by norm_num
  have h0 : (1000 : Nat) * 0 = 0 := by norm_num
  rw [h3, h0] at hc
  refine ⟨by rw [hc.1], ?_, ?_⟩
  · intro hnil
    rw [hnil] at hc
    simp at hc
  · have := runResults_length 0 3000 zeroLatency alwaysOk200
    rw [this, hc.2]

/-- C6, amended: a run configured with rate 0 is accepted by the loop,
which runs one window per second for the whole configured duration, each
window submitting zero requests, and completes normally with zero requests
issued and no error of any kind, whatever the completion behaviour of the
endpoint. -/
theorem C6_zero_rate_amended (D : Nat) (compl : ComplOracle) (resp : RespOracle)
    (hD : 0 < D) :
    (windowLoop 0 (1000 * D) compl resp 0 0).length = D ∧
    totalRequests (runResults 0 (1000 * D) compl resp) = 0 := by
  have hbm : ∀ w, batchElapsed 0 compl w = 0 := fun w => rfl
  have hc := windowLoop_count 0 D compl resp hbm D 0 0 (by omega) (by omega)
  rw [Nat.mul_zero] at hc
  refine ⟨?_, ?_⟩
  · rw [hc.1, Nat.sub_zero]
  · rw [runResults_length, hc.2, Nat.zero_mul]

/-- C6, witness for the amended theorem: a rate-0 run of three seconds
with 700 ms completions runs three windows and issues nothing. -/
theorem C6_zero_rate_amended_witness :
    (windowLoop 0 (1000 * 3) (fun _ _ => 700) alwaysOk200 0 0).length = 3 ∧
      totalRequests (runResults 0 (1000 * 3) (fun _ _ => 700) alwaysOk200) = 0 :=
  C6_zero_rate_amended 3 (fun _ _ => 700) alwaysOk200 (by norm_num)

/-! ## Case handling of the telemetry headers -/

lemma keepHeaderName_congr {k₁ k₂ : String} (hk : lowerStr k₁ = lowerStr k₂) :
    keepHeaderName k₁ = keepHeaderName k₂ := by
  unfold keepHeaderName
  rw [hk]

lemma getCI_congr : ∀ {h₁ h₂ : Headers}, lowerKeys h₁ = lowerKeys h₂ →
    ∀ q, getCI h₁ q = getCI h₂ q := by
  intro h₁
  induction h₁ with
  | nil =>
    intro h₂ h q
    have : h₂ = [] := by
      cases h₂ with
      | nil => rfl
      | cons p t => simp [lowerKeys] at h
    subst this
    rfl
  | cons p t ih =>
    intro h₂ h q
    obtain ⟨k, v⟩ := p
    cases h₂ with
    | nil => simp [lowerKeys] at h
    | cons p₂ t₂ =>
      obtain ⟨k₂, v₂⟩ := p₂
      simp only [lowerKeys, List.map_cons, List.cons.injEq, Prod.mk.injEq] at h
      obtain ⟨⟨hk, hv⟩, ht⟩ := h
      by_cases hq : lowerStr k = lowerStr q
      · simp [getCI, hq, hk ▸ hq, hv]
      · have hq₂ : ¬ lowerStr k₂ = lowerStr q := by rw [← hk]; exact hq
        simp only [getCI, if_neg hq, if_neg hq₂]
        exact ih ht q

lemma rateInfo_lower_congr : ∀ {h₁ h₂ : Headers}, lowerKeys h₁ = lowerKeys h₂ →
    lowerKeys (rateInfoOf h₁) = lowerKeys (rateInfoOf h₂) := by
  intro h₁
  induction h₁ with
  | nil =>
    intro h₂ h
    have : h₂ = [] := by
      cases h₂ with
      | nil => rfl
      | cons p t => simp [lowerKeys] at h
    subst this
    rfl
  | cons p t ih =>
    intro h₂ h
    obtain ⟨k, v⟩ := p
    cases h₂ with
    | nil => simp [lowerKeys] at h
    | cons p₂ t₂ =>
      obtain ⟨k₂, v₂⟩ := p₂
      simp only [lowerKeys, List.map_cons, List.cons.injEq, Prod.mk.injEq] at h
      obtain ⟨⟨hk, hv⟩, ht⟩ := h
      have hkeep := keepHeaderName_congr hk
      by_cases hkp : keepHeaderName k = true
      · have hkp₂ : keepHeaderName k₂ = true := hkeep ▸ hkp
        simp only [rateInfoOf, List.filter_cons, hkp, hkp₂, if_true, lowerKeys,
          List.map_cons, List.cons.injEq, Prod.mk.injEq]
        exact ⟨⟨hk, hv⟩, ih ht⟩
      · have hkp₂ : ¬ keepHeaderName k₂ = true := fun hc => hkp (hkeep ▸ hc)
        simp only [rateInfoOf, List.filter_cons, if_neg hkp, if_neg hkp₂]
        exact ih ht

/-- C7, amended: the header snapshot filter of test_request and the
lookups of test_individual_limits are case-insensitive, so two responses
equal up to header-name casing keep the same snapshot entries and yield
the same per-key telemetry rows there; but the telemetry values the
sustained test extracts afterwards are matched by exact-case key on the
casing-preserving snapshot, so only the canonical spelling
X-RateLimit-Group is recognized by the detected-group scan. -/
theorem C7_header_case_amended (h₁ h₂ : Headers) (h : lowerKeys h₁ = lowerKeys h₂) :
    lowerKeys (rateInfoOf h₁) = lowerKeys (rateInfoOf h₂) ∧
    keyStatusOf h₁ = keyStatusOf h₂ := by
  refine ⟨rateInfo_lower_congr h, ?_⟩
  unfold keyStatusOf
  rw [getCI_congr h "x-ratelimit-current-per-minute", getCI_congr h "x-ratelimit-group",
    getCI_congr h "x-ratelimit-limit-per-minute"]

/-- C7, witness for the amended theorem on a canonical-case and a
lowercase spelling of the same response. -/
theorem C7_header_case_amended_witness :
    lowerKeys [("X-RateLimit-Group", "premium")] = lowerKeys [("x-ratelimit-group", "premium")] ∧
      keyStatusOf [("X-RateLimit-Group", "premium")] =
        keyStatusOf [("x-ratelimit-group", "premium")] :=
  ⟨by decide, (C7_header_case_amended [("X-RateLimit-Group", "premium")]
    [("x-ratelimit-group", "premium")] (by decide)).2⟩

/-- C7, counterexample: two responses identical except for the casing of
X-RateLimit-Group both pass the snapshot filter, yet the sustained test
detects the group premium only from the canonical spelling and reports no
group at all from the lowercase spelling. -/
theorem C7_counterexample :
    lowerKeys [("X-RateLimit-Group", "premium")] = lowerKeys [("x-ratelimit-group", "premium")] ∧
    rateInfoOf [("x-ratelimit-group", "premium")] = [("x-ratelimit-group", "premium")] ∧
    detectedGroup [SimResult.ok 200 (rateInfoOf [("X-RateLimit-Group", "premium")]) 0] =
      some "premium" ∧
    detectedGroup [SimResult.ok 200 (rateInfoOf [("x-ratelimit-group", "premium")]) 0] =
      none := by decide
